import Mathlib

/-
Verification of the beam-size bookkeeping structure (src/amun/common/beam_size.h)
and the CPU decoder step (src/cpu/dl4mt/decoder.cpp) of the marian amun
decoding core.

Modelling conventions:
- `uint` / `size_t` become `Nat` (the claims never exercise wrap-around on
  reachable states: `Decr` is guarded by the emptiness check).
- fallible operations (assert failures, out-of-range lookups, underflow)
  return `Option`.
- the dense matrix type and the weight bundles of the RNN/attention/softmax
  sub-layers are opaque to this core (only row bookkeeping matters here), so
  they are type parameters, and each sub-layer a function field.
-/

namespace Marian

/-- A source sentence, reduced to the two observations this core makes of it:
its stable line number (`Sentence::GetLineNum`) and its token count
(`Sentence::size`). -/
structure Sentence where
  lineNum : Nat
  tokens : Nat
deriving Repr, DecidableEq

/-- `EncOut` (external, immutable): the encoded-source bundle; this core only
reads its sentence list (`EncOut::GetSentences`). -/
structure EncOut where
  sentences : List Sentence
deriving Repr, DecidableEq

/-- `BeamSize::SentenceElement` from beam_size.h: which `EncOut` the slot reads
from, which sentence index within it, and the live beam count. -/
structure SentenceElement where
  encOut : EncOut
  sentenceInd : Nat
  size : Nat
deriving Repr, DecidableEq

/-- `SentenceElement::Decr`: `assert(size); --size;` — the assertion failure on
`size == 0` is modelled as `none`. -/
def SentenceElement.Decr (se : SentenceElement) : Option SentenceElement :=
  if se.size = 0 then none
  else some { se with size := se.size - 1 }

/-- `SentenceElement::GetSentence`: `encOut->GetSentences().Get(sentenceInd)`;
an invalid index is `none`. -/
def SentenceElement.GetSentence (se : SentenceElement) : Option Sentence :=
  se.encOut.sentences.get? se.sentenceInd

/-- The line number of the sentence a `SentenceElement` decodes
(`ele.GetSentence().GetLineNum()`), defaulting to 0 on an invalid index. -/
def SentenceElement.lineNum (se : SentenceElement) : Nat :=
  ((se.GetSentence).map Sentence.lineNum).getD 0

/-- `BeamSize`: the ordered element sequence `sentences_`, the line-number map
`sentencesMap_` (C++ stores pointers into `sentences_`; modelled as indices,
the spec's prescribed memory-safe indirection), and the derived counters
`total_` and `maxLength_`. -/
structure BeamSize where
  sentences_ : List SentenceElement
  sentencesMap_ : List (Nat × Nat)
  total_ : Nat
  maxLength_ : Nat
deriving Repr, DecidableEq

/-- Sum of the live `size` fields of a sequence of elements. -/
def sumSizes (l : List SentenceElement) : Nat :=
  (l.map SentenceElement.size).sum

/-- Building the line-number map: entry `(lineNum, position)` for the element
at each position, positions starting at `k`. -/
def rebuildMapAux : Nat → List SentenceElement → List (Nat × Nat)
  | _, [] => []
  | k, se :: rest => (se.lineNum, k) :: rebuildMapAux (k + 1) rest

/-- Modelled from the spec: the line-number map is (re)built to reference each
element at its current position (`sentencesMap_[sentence.GetLineNum()] = &ele`;
the definition of `BeamSize::Init` / the map rebuild is not under src/). -/
def rebuildMap (l : List SentenceElement) : List (Nat × Nat) :=
  rebuildMapAux 0 l

/-- Modelled from the spec: `BeamSize::Init(maxBeamSize, encOut)` (definition
not under src/) rebuilds the element sequence from `encOut`'s sentence list,
one element per sentence with initial live count `maxBeamSize`, rebuilds the
line-number map, recomputes `total_` as the sum of the sizes and `maxLength_`
as the maximum sentence token length. -/
def BeamSize.Init (maxBeamSize : Nat) (encOut : EncOut) : BeamSize :=
  let s := (List.range encOut.sentences.length).map
    (fun i => SentenceElement.mk encOut i maxBeamSize)
  { sentences_ := s
    sentencesMap_ := rebuildMap s
    total_ := sumSizes s
    maxLength_ := (encOut.sentences.map Sentence.tokens).foldr max 0 }

/-- `BeamSize::GetTotal`: returns `total_`. -/
def BeamSize.GetTotal (b : BeamSize) : Nat :=
  b.total_

/-- `BeamSize::size`: number of elements. -/
def BeamSize.size (b : BeamSize) : Nat :=
  b.sentences_.length

/-- `BeamSize::Get(ind)`: element at batch-slot `ind`; out-of-range is `none`. -/
def BeamSize.Get (b : BeamSize) (ind : Nat) : Option SentenceElement :=
  b.sentences_.get? ind

/-- Modelled from the spec: `BeamSize::Decr(ind)` (definition not under src/)
decrements the live count of the element at `ind` by one and `total_` by one;
it fails with an underflow condition (`none`) if that count is already zero. -/
def BeamSize.Decr (b : BeamSize) (ind : Nat) : Option BeamSize :=
  match b.sentences_.get? ind with
  | none => none
  | some se =>
    match se.Decr with
    | none => none
    | some se2 =>
      some { b with sentences_ := b.sentences_.set ind se2, total_ := b.total_ - 1 }

/-- Modelled from the spec: `BeamSize::DecrByLineNum(lineNum)` (definition not
under src/) resolves the line number through the map and decrements that
element. -/
def BeamSize.DecrByLineNum (b : BeamSize) (ln : Nat) : Option BeamSize :=
  match b.sentencesMap_.lookup ln with
  | none => none
  | some i => b.Decr i

/-- Modelled from the spec: `BeamSize::DeleteEmpty()` (definition not under
src/) removes every element whose `size == 0`, keeping the relative order of
the survivors, then rebuilds the line-number map to reference the surviving
elements at their new positions. -/
def BeamSize.DeleteEmpty (b : BeamSize) : BeamSize :=
  let s := b.sentences_.filter (fun se => se.size != 0)
  { b with sentences_ := s, sentencesMap_ := rebuildMap s }

/-- Modelled from the spec: `BeamSize::GetByLineNum(lineNum)` (definition not
under src/) resolves the line number through `sentencesMap_` to an element of
`sentences_`; an unknown line number is `none`. -/
def BeamSize.GetByLineNum (b : BeamSize) (ln : Nat) : Option SentenceElement :=
  (b.sentencesMap_.lookup ln).bind (fun i => b.sentences_.get? i)

/-- The structural mutations of `BeamSize` after `Init`. -/
inductive BSOp where
  | decr (ind : Nat)
  | decrByLineNum (ln : Nat)
  | deleteEmpty
deriving Repr, DecidableEq

/-- One structural mutation applied to a state (failures propagate as `none`). -/
def applyOp (b : BeamSize) : BSOp → Option BeamSize
  | BSOp.decr ind => b.Decr ind
  | BSOp.decrByLineNum ln => b.DecrByLineNum ln
  | BSOp.deleteEmpty => some b.DeleteEmpty

/-- A sequence of `Decr` calls; the whole sequence fails if any call underflows. -/
def applyDecrs : BeamSize → List Nat → Option BeamSize
  | b, [] => some b
  | b, i :: is =>
    match b.Decr i with
    | none => none
    | some b2 => applyDecrs b2 is

/-- The accounting invariant: `total_` equals the sum of all live `size`
fields. -/
def Wf (b : BeamSize) : Prop :=
  b.total_ = sumSizes b.sentences_

/-! ## The CPU decoder (src/cpu/dl4mt/decoder.cpp)

The matrix element data is opaque to the decoder's control flow, so a row of
the embedding table is an arbitrary type `ρ`, and the dense matrix / probs
types `M`, `P` are likewise parameters. -/

/-- The weight bundle of `Decoder::Embeddings`, reduced to what the code reads
of the matrix `w_.E_`: its row count and its rows. -/
structure EmbeddingsW (ρ : Type) where
  rows : Nat
  row : Nat → ρ

/-- `mblas::Assemble<byRow>(E, tids)`: one row of `E` per id, in input order. -/
def Assemble (w : EmbeddingsW ρ) (tids : List Nat) : List ρ :=
  tids.map w.row

/-- `Decoder::Embeddings::Lookup`: copies `ids`, replaces every id `>=
w_.E_.rows()` by `1`, and assembles the corresponding rows. -/
def EmbeddingsW.Lookup (w : EmbeddingsW ρ) (ids : List Nat) : List ρ :=
  Assemble w (ids.map (fun id => if w.rows ≤ id then 1 else id))

/-- `Decoder::Embeddings::GetRows`: `w_.E_.rows()`. -/
def EmbeddingsW.GetRows (w : EmbeddingsW ρ) : Nat :=
  w.rows

/-- The `Decoder` of decoder.cpp: the embeddings table, the four sub-layers
(each an opaque function of its weight bundle), and the per-step working
buffers `HiddenState_` and `AlignedSourceContext_` that `MakeStep`
overwrites. -/
structure Decoder (ρ M P : Type) where
  embeddings_ : EmbeddingsW ρ
  rnn1_ : M → M → M
  attention_ : M → M → M
  rnn2_ : M → M → M
  softmax_ : M → M → M → P
  HiddenState_ : M
  AlignedSourceContext_ : M

/-- `Decoder::GetHiddenState`: delegates to `rnn1_.GetNextState`. -/
def Decoder.GetHiddenState (d : Decoder ρ M P) (PrevState Embedding : M) : M :=
  d.rnn1_ PrevState Embedding

/-- `Decoder::GetAlignedSourceContext`: delegates to
`attention_.GetAlignedSourceContext`. -/
def Decoder.GetAlignedSourceContext (d : Decoder ρ M P)
    (HiddenState SourceContext : M) : M :=
  d.attention_ HiddenState SourceContext

/-- `Decoder::GetNextState`: delegates to `rnn2_.GetNextState`. -/
def Decoder.GetNextState (d : Decoder ρ M P)
    (HiddenState AlignedSourceContext : M) : M :=
  d.rnn2_ HiddenState AlignedSourceContext

/-- `Decoder::GetProbs`: delegates to `softmax_.GetProbs`. -/
def Decoder.GetProbs (d : Decoder ρ M P)
    (State Embedding AlignedSourceContext : M) : P :=
  d.softmax_ State Embedding AlignedSourceContext

/-- `Decoder::MakeStep`: the four sub-steps in sequence, writing the working
buffers `HiddenState_` and `AlignedSourceContext_` and producing
`(NextState, Probs)`.  Returned as (decoder with updated buffers, NextState,
Probs). -/
def Decoder.MakeStep (d : Decoder ρ M P)
    (State Embeddings SourceContext : M) : Decoder ρ M P × M × P :=
  let h := d.GetHiddenState State Embeddings
  let a := d.GetAlignedSourceContext h SourceContext
  let ns := d.GetNextState h a
  let p := d.GetProbs ns Embeddings a
  ({ d with HiddenState_ := h, AlignedSourceContext_ := a }, ns, p)

/-- `Decoder::Lookup`: delegates to `embeddings_.Lookup`. -/
def Decoder.Lookup (d : Decoder ρ M P) (w : List Nat) : List ρ :=
  d.embeddings_.Lookup w

/-- `Decoder::GetVocabSize`: `embeddings_.GetRows()`. -/
def Decoder.GetVocabSize (d : Decoder ρ M P) : Nat :=
  d.embeddings_.GetRows

/-! ## Example data used by the concrete witnesses -/

def encOutEx : EncOut := ⟨[⟨10, 4⟩, ⟨11, 2⟩]⟩

def bEx : BeamSize := BeamSize.Init 3 encOutEx

def bEx1 : BeamSize := (bEx.Decr 0).getD bEx

def bEx2 : BeamSize := (applyDecrs bEx [0, 0]).getD bEx

def bC2 : BeamSize :=
  { sentences_ := [SentenceElement.mk encOutEx 0 0]
    sentencesMap_ := [(10, 0)]
    total_ := 0
    maxLength_ := 4 }

def bC3 : BeamSize :=
  { sentences_ := [SentenceElement.mk encOutEx 0 0, SentenceElement.mk encOutEx 1 2]
    sentencesMap_ := rebuildMap [SentenceElement.mk encOutEx 0 0,
      SentenceElement.mk encOutEx 1 2]
    total_ := 2
    maxLength_ := 4 }

def wEx : EmbeddingsW Nat := ⟨5, fun i => i * 10⟩

def decEx1 : Decoder Nat Nat Nat :=
  { embeddings_ := wEx
    rnn1_ := fun a b => a + b
    attention_ := fun a b => a * 2 + b
    rnn2_ := fun a b => a + 3 * b
    softmax_ := fun a b c => a + b + c
    HiddenState_ := 0
    AlignedSourceContext_ := 0 }

def decEx2 : Decoder Nat Nat Nat :=
  { decEx1 with HiddenState_ := 99, AlignedSourceContext_ := 77 }

/-! ## Helper lemmas on the beam-size accounting -/

theorem sumSizes_nil : sumSizes [] = 0 := rfl

theorem sumSizes_cons (a : SentenceElement) (t : List SentenceElement) :
    sumSizes (a :: t) = a.size + sumSizes t := by
  simp [sumSizes]

theorem sumSizes_set (l : List SentenceElement) (i : Nat) (se se2 : SentenceElement)
    (h : l.get? i = some se) :
    sumSizes (l.set i se2) + se.size = sumSizes l + se2.size := by
  induction l generalizing i with
  | nil => simp at h
  | cons a t ih =>
    cases i with
    | zero =>
      simp only [List.get?] at h
      injection h with h
      subst h
      simp [sumSizes_cons]
      omega
    | succ n =>
      simp only [List.get?] at h
      have hrec := ih n h
      simp [sumSizes_cons]
      omega

theorem sumSizes_filter_ne_zero (l : List SentenceElement) :
    sumSizes (l.filter (fun se => se.size != 0)) = sumSizes l := by
  induction l with
  | nil => rfl
  | cons a t ih =>
    by_cases h : a.size = 0
    · simp [List.filter_cons, h, sumSizes_cons, ih]
    · simp [List.filter_cons, h, sumSizes_cons, ih]

theorem decr_wf_total (b b2 : BeamSize) (ind : Nat)
    (hw : Wf b) (h : b.Decr ind = some b2) :
    Wf b2 ∧ b2.GetTotal + 1 = b.GetTotal := by
  unfold BeamSize.Decr at h
  cases hg : b.sentences_.get? ind with
  | none => rw [hg] at h; exact absurd h (by simp)
  | some se =>
    rw [hg] at h
    unfold SentenceElement.Decr at h
    by_cases hz : se.size = 0
    · simp [hz] at h
    · simp only [hz, if_false, reduceIte] at h
      injection h with h
      subst h
      have hset := sumSizes_set b.sentences_ ind se { se with size := se.size - 1 } hg
      simp only [Wf, BeamSize.GetTotal] at hw ⊢
      simp only at hset ⊢
      omega

theorem deleteEmpty_wf (b : BeamSize) (hw : Wf b) : Wf b.DeleteEmpty := by
  simp only [Wf, BeamSize.DeleteEmpty] at hw ⊢
  simpa [sumSizes_filter_ne_zero] using hw

theorem applyOp_wf (b : BeamSize) (op : BSOp) (b2 : BeamSize)
    (hw : Wf b) (h : applyOp b op = some b2) : Wf b2 := by
  cases op with
  | decr ind => exact (decr_wf_total b b2 ind hw h).1
  | decrByLineNum ln =>
    simp only [applyOp, BeamSize.DecrByLineNum] at h
    cases hg : b.sentencesMap_.lookup ln with
    | none => rw [hg] at h; exact absurd h (by simp)
    | some i =>
      rw [hg] at h
      exact (decr_wf_total b b2 i hw h).1
  | deleteEmpty =>
    simp only [applyOp, Option.some.injEq] at h
    subst h
    exact deleteEmpty_wf b hw

theorem applyDecrs_total (inds : List Nat) (b b2 : BeamSize)
    (hw : Wf b) (h : applyDecrs b inds = some b2) :
    b2.GetTotal + inds.length = b.GetTotal := by
  induction inds generalizing b with
  | nil =>
    unfold applyDecrs at h
    injection h with h
    subst h
    simp
  | cons i is ih =>
    unfold applyDecrs at h
    cases hg : b.Decr i with
    | none => rw [hg] at h; exact absurd h (by simp)
    | some b1 =>
      rw [hg] at h
      have h1 := decr_wf_total b b1 i hw hg
      have h2 := ih b1 h1.1 h
      simp only [List.length_cons]
      omega

theorem init_wf (mb : Nat) (e : EncOut) : Wf (BeamSize.Init mb e) := rfl

theorem lookup_rebuildMapAux (l : List SentenceElement) (k : Nat)
    (se : SentenceElement)
    (hnd : (l.map SentenceElement.lineNum).Nodup) (hmem : se ∈ l) :
    ∃ j, (rebuildMapAux k l).lookup se.lineNum = some (k + j) ∧
      l.get? j = some se := by
  induction l generalizing k with
  | nil => exact absurd hmem (List.not_mem_nil se)
  | cons a t ih =>
    rcases List.mem_cons.1 hmem with rfl | hmt
    · exact ⟨0, by simp [rebuildMapAux, List.lookup], rfl⟩
    · have hne : se.lineNum ≠ a.lineNum := by
        intro hcontra
        have : a.lineNum ∈ t.map SentenceElement.lineNum :=
          hcontra ▸ List.mem_map_of_mem SentenceElement.lineNum hmt
        exact (List.nodup_cons.1 hnd).1 this
      obtain ⟨j, hl, hg⟩ := ih (k + 1) (List.nodup_cons.1 hnd).2 hmt
      refine ⟨j + 1, ?_, hg⟩
      have hbeq : (se.lineNum == a.lineNum) = false := beq_eq_false_iff_ne.2 hne
      simp only [rebuildMapAux, List.lookup, hbeq]
      rw [hl]
      congr 1
      omega

/-! ## The claims -/

/-- C1: for every reachable `BeamSize` state the value of `GetTotal()` equals
the sum of the `size` fields of the elements, and this is preserved by every
structural mutation (`Init` establishes it; `Decr`, `DecrByLineNum` and
`DeleteEmpty` preserve it); after any sequence of `Decr` calls that never
underflows, `GetTotal()` equals the initial total minus the number of
successful decrements. -/
theorem c1_total_invariant :
    (∀ (mb : Nat) (e : EncOut), Wf (BeamSize.Init mb e)) ∧
    (∀ (b : BeamSize) (op : BSOp) (b2 : BeamSize),
      Wf b → applyOp b op = some b2 → Wf b2) ∧
    (∀ (b : BeamSize) (inds : List Nat) (b2 : BeamSize),
      Wf b → applyDecrs b inds = some b2 →
      b2.GetTotal + inds.length = b.GetTotal) :=
  ⟨init_wf, applyOp_wf, fun b inds b2 hw h => applyDecrs_total inds b b2 hw h⟩

/-- Witness for C1 at `maxBeamSize = 3` over two sentences: `Init` establishes
the invariant, one `Decr` preserves it, and two successful decrements lower
the total from 6 by exactly 2. -/
theorem c1_total_invariant_witness :
    Wf (BeamSize.Init 3 encOutEx) ∧ Wf bEx1 ∧
      bEx2.GetTotal + 2 = bEx.GetTotal :=
  ⟨c1_total_invariant.1 3 encOutEx,
   c1_total_invariant.2.1 bEx (BSOp.decr 0) bEx1 (by rfl) (by rfl),
   c1_total_invariant.2.2 bEx [0, 0] bEx2 (by rfl) (by rfl)⟩

/-- C2: `Decr(ind)` on an element whose `size` is already 0 fails with the
underflow condition (`none`): no field of the state is written, so `total_`
and the element's `size` are unchanged; it does not wrap or proceed. -/
theorem c2_decr_underflow (b : BeamSize) (ind : Nat) (se : SentenceElement)
    (hget : b.Get ind = some se) (hz : se.size = 0) :
    b.Decr ind = none := by
  simp only [BeamSize.Get, List.get?_eq_getElem?] at hget
  simp [BeamSize.Decr, hget, SentenceElement.Decr, hz]

/-- Witness for C2: on a one-element state whose slot is already empty,
`Decr 0` returns the underflow failure. -/
theorem c2_decr_underflow_witness : bC2.Decr 0 = none :=
  c2_decr_underflow bC2 0 (SentenceElement.mk encOutEx 0 0) (by rfl) (by rfl)

/-- C3: after `DeleteEmpty()` no remaining element has `size == 0`, and the
surviving elements form a sublist of (appear in the same relative order as)
the original sequence. -/
theorem c3_deleteEmpty_no_empty_order (b : BeamSize) :
    (∀ se ∈ b.DeleteEmpty.sentences_, se.size ≠ 0) ∧
      b.DeleteEmpty.sentences_.Sublist b.sentences_ := by
  constructor
  · intro se hmem
    have := (List.mem_filter.1 hmem).2
    simpa using this
  · exact List.filter_sublist b.sentences_

/-- Witness for C3: deleting the empty slot of a two-element state leaves the
surviving element non-empty and a sublist of the original sequence. -/
theorem c3_deleteEmpty_witness :
    (SentenceElement.mk encOutEx 1 2).size ≠ 0 ∧
      bC3.DeleteEmpty.sentences_.Sublist bC3.sentences_ :=
  ⟨(c3_deleteEmpty_no_empty_order bC3).1 (SentenceElement.mk encOutEx 1 2)
      (by decide),
   (c3_deleteEmpty_no_empty_order bC3).2⟩

/-- C4: when the elements' line numbers are distinct, every element that
survives `DeleteEmpty()` (size not 0) is still found by `GetByLineNum` under
its line number afterwards: the rebuilt map resolves to that same element at
its new position, with no stale reference. -/
theorem c4_getByLineNum_after_deleteEmpty (b : BeamSize) (se : SentenceElement)
    (hnd : (b.sentences_.map SentenceElement.lineNum).Nodup)
    (hmem : se ∈ b.sentences_) (hsz : se.size ≠ 0) :
    b.DeleteEmpty.GetByLineNum se.lineNum = some se := by
  have hmem2 : se ∈ b.sentences_.filter (fun se => se.size != 0) :=
    List.mem_filter.2 ⟨hmem, by simpa using hsz⟩
  have hnd2 : ((b.sentences_.filter (fun se => se.size != 0)).map
      SentenceElement.lineNum).Nodup :=
    hnd.sublist ((List.filter_sublist b.sentences_).map SentenceElement.lineNum)
  obtain ⟨j, hl, hg⟩ := lookup_rebuildMapAux
    (b.sentences_.filter (fun se => se.size != 0)) 0 se hnd2 hmem2
  simp only [Nat.zero_add] at hl
  simp only [List.get?_eq_getElem?] at hg
  simp [BeamSize.DeleteEmpty, BeamSize.GetByLineNum, rebuildMap, hl, hg]

/-- Witness for C4: in a two-sentence state with distinct line numbers 10 and
11 whose first slot is empty, the element of line 11 survives and
`GetByLineNum 11` still returns it after `DeleteEmpty`. -/
theorem c4_getByLineNum_witness :
    bC3.DeleteEmpty.GetByLineNum (SentenceElement.mk encOutEx 1 2).lineNum =
      some (SentenceElement.mk encOutEx 1 2) :=
  c4_getByLineNum_after_deleteEmpty bC3 (SentenceElement.mk encOutEx 1 2)
    (by decide) (by decide) (by decide)

/-- C5: immediately after `Init(maxBeamSize, encOut)` on a non-empty `EncOut`,
`GetTotal()` equals `maxBeamSize` times the number of sentences, every
element's `size` being initialized to `maxBeamSize` (no length-based
capping). -/
theorem c5_init_total (mb : Nat) (e : EncOut) (_hne : e.sentences ≠ []) :
    (BeamSize.Init mb e).GetTotal = mb * e.sentences.length ∧
      ∀ se ∈ (BeamSize.Init mb e).sentences_, se.size = mb := by
  constructor
  · simp only [BeamSize.Init, BeamSize.GetTotal, sumSizes, List.map_map]
    have h1 : (SentenceElement.size ∘ fun i => SentenceElement.mk e i mb) =
        Function.const Nat mb := rfl
    rw [h1, List.map_const, List.length_range, List.sum_replicate, smul_eq_mul,
      Nat.mul_comm]
  · intro se hmem
    simp only [BeamSize.Init, List.mem_map] at hmem
    obtain ⟨i, _, rfl⟩ := hmem
    rfl

/-- Witness for C5: `Init 3` over the two-sentence batch gives total 6 and
both elements at size 3. -/
theorem c5_init_total_witness :
    (BeamSize.Init 3 encOutEx).GetTotal = 3 * encOutEx.sentences.length ∧
      (SentenceElement.mk encOutEx 0 3).size = 3 :=
  ⟨(c5_init_total 3 encOutEx (by decide)).1,
   (c5_init_total 3 encOutEx (by decide)).2 (SentenceElement.mk encOutEx 0 3)
     (by decide)⟩

/-- C6: `Embeddings::Lookup` never fails on an id at or above the vocabulary
row count: one output row per input id in input order, an out-of-vocabulary id
produces the same row as looking the unknown-token id up itself, and an id
below the row count resolves to its own row unchanged. -/
theorem c6_lookup_oov_substitution {ρ : Type} (w : EmbeddingsW ρ)
    (ids : List Nat) :
    (w.Lookup ids).length = ids.length ∧
      (∀ i id, ids.get? i = some id → w.rows ≤ id →
        (w.Lookup ids).get? i = (w.Lookup [1]).get? 0) ∧
      (∀ i id, ids.get? i = some id → id < w.rows →
        (w.Lookup ids).get? i = some (w.row id)) := by
  refine ⟨by simp [EmbeddingsW.Lookup, Assemble], ?_, ?_⟩
  · intro i id hid hoov
    simp only [List.get?_eq_getElem?] at hid
    simp [EmbeddingsW.Lookup, Assemble, List.getElem?_map, hid, hoov]
  · intro i id hid hin
    simp only [List.get?_eq_getElem?] at hid
    simp [EmbeddingsW.Lookup, Assemble, List.getElem?_map, hid,
      Nat.not_le.2 hin]

/-- Witness for C6 on a 5-row table: `[2, 7]` yields two rows, the
out-of-vocabulary id 7 yields the unknown-token row, and the in-vocabulary
id 2 yields its own row. -/
theorem c6_lookup_oov_witness :
    (wEx.Lookup [2, 7]).length = 2 ∧
      (wEx.Lookup [2, 7]).get? 1 = (wEx.Lookup [1]).get? 0 ∧
      (wEx.Lookup [2, 7]).get? 0 = some (wEx.row 2) :=
  ⟨(c6_lookup_oov_substitution wEx [2, 7]).1,
   (c6_lookup_oov_substitution wEx [2, 7]).2.1 1 7 (by rfl) (by decide),
   (c6_lookup_oov_substitution wEx [2, 7]).2.2 0 2 (by rfl) (by decide)⟩

/-- C7: `MakeStep` performs the four sub-steps in order, so that its
`NextState` output is RNN cell #2 applied to the hidden state (RNN cell #1 of
`State` and `Embeddings`) and the aligned context (attention of that hidden
state and `SourceContext`), and its `Probs` output is the softmax layer
applied to that next state, `Embeddings`, and that aligned context. -/
theorem c7_makestep_composition {ρ M P : Type} (d : Decoder ρ M P)
    (State Embeddings SourceContext : M) :
    (d.MakeStep State Embeddings SourceContext).2.1 =
      d.rnn2_ (d.rnn1_ State Embeddings)
        (d.attention_ (d.rnn1_ State Embeddings) SourceContext) ∧
    (d.MakeStep State Embeddings SourceContext).2.2 =
      d.softmax_
        (d.rnn2_ (d.rnn1_ State Embeddings)
          (d.attention_ (d.rnn1_ State Embeddings) SourceContext))
        Embeddings
        (d.attention_ (d.rnn1_ State Embeddings) SourceContext) :=
  ⟨rfl, rfl⟩

/-- C8: `MakeStep` is deterministic: two decoders with the same weights (the
same four sub-layer functions), whatever the contents of their transient
working buffers, produce the same `(NextState, Probs)` on the same
`(State, Embeddings, SourceContext)` inputs. -/
theorem c8_makestep_deterministic {ρ M P : Type} (d1 d2 : Decoder ρ M P)
    (State Embeddings SourceContext : M)
    (h1 : d1.rnn1_ = d2.rnn1_) (h2 : d1.attention_ = d2.attention_)
    (h3 : d1.rnn2_ = d2.rnn2_) (h4 : d1.softmax_ = d2.softmax_) :
    (d1.MakeStep State Embeddings SourceContext).2 =
      (d2.MakeStep State Embeddings SourceContext).2 := by
  simp [Decoder.MakeStep, Decoder.GetHiddenState, Decoder.GetAlignedSourceContext,
    Decoder.GetNextState, Decoder.GetProbs, h1, h2, h3, h4]

/-- Witness for C8: two decoders sharing weights but holding different stale
buffer contents produce the same step outputs on `(1, 2, 3)`. -/
theorem c8_makestep_deterministic_witness :
    (decEx1.MakeStep 1 2 3).2 = (decEx2.MakeStep 1 2 3).2 :=
  c8_makestep_deterministic decEx1 decEx2 1 2 3 rfl rfl rfl rfl

/-- C9: the out-of-vocabulary cutoff of `Lookup` is exactly the embedding
table's row count, which is the value `GetVocabSize()` returns, and the
substituted unknown-token id is the constant 1: every id at or above
`GetVocabSize()` yields row 1 of the table, every id below it its own row. -/
theorem c9_vocab_cutoff {ρ M P : Type} (d : Decoder ρ M P) (ids : List Nat)
    (i id : Nat) (hid : ids.get? i = some id) :
    d.GetVocabSize = d.embeddings_.rows ∧
      (d.GetVocabSize ≤ id →
        (d.Lookup ids).get? i = some (d.embeddings_.row 1)) ∧
      (id < d.GetVocabSize →
        (d.Lookup ids).get? i = some (d.embeddings_.row id)) := by
  refine ⟨rfl, ?_, ?_⟩
  · intro hoov
    simp only [List.get?_eq_getElem?] at hid
    simp only [Decoder.GetVocabSize, EmbeddingsW.GetRows] at hoov
    simp [Decoder.Lookup, EmbeddingsW.Lookup, Assemble, List.getElem?_map,
      hid, hoov]
  · intro hin
    simp only [List.get?_eq_getElem?] at hid
    simp only [Decoder.GetVocabSize, EmbeddingsW.GetRows] at hin
    simp [Decoder.Lookup, EmbeddingsW.Lookup, Assemble, List.getElem?_map,
      hid, Nat.not_le.2 hin]

/-- Witness for C9 on the 5-row decoder: vocab size is the row count 5, id 9
(at or above the cutoff) yields row 1, id 4 (just below) its own row. -/
theorem c9_vocab_cutoff_witness :
    decEx1.GetVocabSize = decEx1.embeddings_.rows ∧
      (decEx1.Lookup [9, 4]).get? 0 = some (decEx1.embeddings_.row 1) ∧
      (decEx1.Lookup [9, 4]).get? 1 = some (decEx1.embeddings_.row 4) :=
  ⟨(c9_vocab_cutoff decEx1 [9, 4] 0 9 (by rfl)).1,
   (c9_vocab_cutoff decEx1 [9, 4] 0 9 (by rfl)).2.1 (by decide),
   (c9_vocab_cutoff decEx1 [9, 4] 1 4 (by rfl)).2.2 (by decide)⟩

/-- C10: `SentenceElement::Decr` on an element with non-zero `size` decreases
`size` by exactly one and leaves `encOut` and `sentenceInd` unchanged. -/
theorem c10_element_decr_frame (se : SentenceElement) (h : se.size ≠ 0) :
    se.Decr = some (SentenceElement.mk se.encOut se.sentenceInd (se.size - 1)) ∧
      se.size - 1 + 1 = se.size := by
  constructor
  · simp [SentenceElement.Decr, h]
  · omega

/-- Witness for C10: decrementing a size-3 element keeps its `encOut` and
sentence index and lands at size 2. -/
theorem c10_element_decr_frame_witness :
    (SentenceElement.mk encOutEx 0 3).Decr =
      some (SentenceElement.mk encOutEx 0 2) ∧ 2 + 1 = 3 :=
  c10_element_decr_frame (SentenceElement.mk encOutEx 0 3) (by decide)

end Marian
